import Mathlib

/-!
Shallow embedding of `src/analysis/parse_behaviorspace.py`, the BehaviorSpace
export parser, together with proofs of the specification's claims about it.

Modelling conventions:
* A CSV file, once read by `_read_rows`, is a `List (List String)` (rows of
  cells); the file/IO layer itself is outside the embedding, so every parser
  is stated on the row list it receives.
* Python `str.strip` / `str.lower` / `in` / `startswith` are re-implemented
  structurally on `String.data` (ASCII semantics, which covers every string
  the parser compares against).
* Python `int(x)` / `float(x)` are modelled by `pyint` / `pyfloat` on the
  base-10 grammars they accept (sign, digit groups with single underscores,
  decimal point, exponent).  A parsed float is represented exactly as a
  reduced rational `PyFloat`; the inputs appearing in the claims are exactly
  representable IEEE doubles, so the rational value is the float's value.
  IEEE overflow of enormous exponents and non-ASCII digits are outside the
  model.
* `pandas.DataFrame.from_records(records)` is modelled by the record list
  itself: the tidy table is the ordered list of parsed records, a record
  being an insertion-ordered association list with last-write-wins update,
  exactly the dict semantics the source relies on.
* Python `raise ValueError(msg)` is modelled by `Except.error e` where `e`
  is the `ParseError` constructor naming `msg`.
-/

/-- Python `str.strip()` whitespace test, restricted to the ASCII whitespace
characters (space, tab, newline, carriage return, vertical tab, form feed). -/
def pyIsSpace (c : Char) : Bool :=
  c == ' ' || c == '\t' || c == '\n' || c == '\r' || c == '\x0b' || c == '\x0c'

/-- Strip `pyIsSpace` characters from both ends of a character list. -/
def stripChars (cs : List Char) : List Char :=
  (((cs.dropWhile pyIsSpace).reverse).dropWhile pyIsSpace).reverse

/-- Model of Python `x.strip()`. -/
def pystrip (s : String) : String := String.mk (stripChars s.data)

/-- ASCII lower-casing of one character, as Python `str.lower()` acts on the
ASCII range. -/
def lowerChar (c : Char) : Char :=
  match c with
  | 'A' => 'a' | 'B' => 'b' | 'C' => 'c' | 'D' => 'd' | 'E' => 'e'
  | 'F' => 'f' | 'G' => 'g' | 'H' => 'h' | 'I' => 'i' | 'J' => 'j'
  | 'K' => 'k' | 'L' => 'l' | 'M' => 'm' | 'N' => 'n' | 'O' => 'o'
  | 'P' => 'p' | 'Q' => 'q' | 'R' => 'r' | 'S' => 's' | 'T' => 't'
  | 'U' => 'u' | 'V' => 'v' | 'W' => 'w' | 'X' => 'x' | 'Y' => 'y'
  | 'Z' => 'z' | c => c

/-- Model of Python `x.lower()` (ASCII range). -/
def pylower (s : String) : String := String.mk (s.data.map lowerChar)

/-- Model of Python `c in x` for a single character `c`. -/
def pycontains (s : String) (c : Char) : Bool := s.data.contains c

/-- Model of Python `x.startswith(p)`. -/
def pystartswith (s p : String) : Bool := p.data.isPrefixOf s.data

/-- An exactly-represented Python float: a rational stored as
numerator/denominator.  Values are always built through `mkPyFloat`, which
reduces the fraction, so equal rationals have equal representations. -/
structure PyFloat where
  num : Int
  den : Nat
deriving Repr, DecidableEq

/-- Euclid's algorithm with explicit fuel (the first argument), so that it
unfolds by structural recursion; `fuel = m + 1` always suffices because the
first Euclid argument strictly decreases. -/
def gcdFuel : Nat → Nat → Nat → Nat
  | 0, _, n => n
  | _ + 1, 0, n => n
  | fuel + 1, m + 1, n => gcdFuel fuel (n % (m + 1)) (m + 1)

/-- Build a `PyFloat` in lowest terms from numerator `n` and denominator `d`
(`d` is always a positive power of ten at call sites). -/
def mkPyFloat (n : Int) (d : Nat) : PyFloat :=
  let g := gcdFuel (n.natAbs + 1) n.natAbs d
  ⟨n / (g : Int), d / g⟩

/-- The typed scalar produced by the coercer `_to_scalar`: Python's
`None` / `bool` / `int` / `float` / `str`. -/
inductive Scalar where
  | none
  | bool (b : Bool)
  | int (n : Int)
  | float (f : PyFloat)
  | str (s : String)
deriving Repr, DecidableEq

/-- Digit-group validity: Python's base-10 digit grammar used by both
`int()` and `float()` — nonempty, only digits and underscores, starts and
ends with a digit, no two consecutive underscores. -/
def noDoubleUnderscore : List Char → Bool
  | [] => true
  | [_] => true
  | a :: b :: rest => !(a == '_' && b == '_') && noDoubleUnderscore (b :: rest)

/-- Whether `cs` is a valid Python digit group (see `noDoubleUnderscore`). -/
def isDigitGroup (cs : List Char) : Bool :=
  match cs with
  | [] => false
  | _ =>
    (cs.all fun c => c.isDigit || c == '_') &&
    (match cs.head? with | some c => c.isDigit | _ => false) &&
    (match cs.getLast? with | some c => c.isDigit | _ => false) &&
    noDoubleUnderscore cs

/-- The digits of a group, underscores removed. -/
def groupDigits (cs : List Char) : List Char := cs.filter fun c => c.isDigit

/-- Value of a list of decimal digits, most significant first. -/
def digitsToNat (cs : List Char) : Nat :=
  cs.foldl (fun a c => 10 * a + (c.toNat - 48)) 0

/-- Split one optional leading sign off a character list, returning the sign
as `1` or `-1`. -/
def signSplit (cs : List Char) : Int × List Char :=
  match cs with
  | '+' :: rest => (1, rest)
  | '-' :: rest => (-1, rest)
  | _ => (1, cs)

/-- Model of Python `int(x)` (base 10, ASCII) on an already-stripped string:
optional sign followed by a digit group. -/
def pyint (x : String) : Option Int :=
  let sb := signSplit x.data
  if isDigitGroup sb.2 then some (sb.1 * (digitsToNat (groupDigits sb.2) : Int))
  else Option.none

/-- Split a character list at the first character satisfying `p`, keeping
neither side of the split character; `none` when no character matches. -/
def splitAtFirst (p : Char → Bool) : List Char → Option (List Char × List Char)
  | [] => Option.none
  | a :: rest =>
    if p a then some ([], rest)
    else
      match splitAtFirst p rest with
      | some lr => some (a :: lr.1, lr.2)
      | _ => Option.none

/-- Exponent-marker test for the float grammar. -/
def isExpChar (c : Char) : Bool := c == 'e' || c == 'E'

/-- Parse the unsigned mantissa of a Python float literal: either a digit
group, or intpart `.` fracpart with at least one side present.  Returns the
concatenated digit value and the number of fractional digits. -/
def parseMantissa (cs : List Char) : Option (Nat × Nat) :=
  match splitAtFirst (fun c => c == '.') cs with
  | Option.none =>
    if isDigitGroup cs then some (digitsToNat (groupDigits cs), 0) else Option.none
  | some ipfp =>
    if ipfp.2.contains '.' then Option.none
    else
      match ipfp.1, ipfp.2 with
      | [], [] => Option.none
      | [], fp =>
        if isDigitGroup fp then some (digitsToNat (groupDigits fp), (groupDigits fp).length)
        else Option.none
      | ip, [] =>
        if isDigitGroup ip then some (digitsToNat (groupDigits ip), 0) else Option.none
      | ip, fp =>
        if isDigitGroup ip && isDigitGroup fp then
          some (digitsToNat (groupDigits ip ++ groupDigits fp), (groupDigits fp).length)
        else Option.none

/-- Parse an optionally-signed digit group (the exponent of a float literal). -/
def parseSignedGroup (cs : List Char) : Option Int :=
  let sb := signSplit cs
  if isDigitGroup sb.2 then some (sb.1 * (digitsToNat (groupDigits sb.2) : Int))
  else Option.none

/-- Assemble the exact value `sgn * (m / 10^k) * 10^e` as a reduced
`PyFloat`. -/
def pyfloatVal (sgn : Int) (m k : Nat) (e : Int) : PyFloat :=
  let t : Int := e - (k : Int)
  if 0 ≤ t then mkPyFloat (sgn * (m : Int) * (10 : Int) ^ t.toNat) 1
  else mkPyFloat (sgn * (m : Int)) ((10 : Nat) ^ (-t).toNat)

/-- Model of Python `float(x)` on an already-stripped string: optional sign,
mantissa, optional exponent part.  The spellings `inf`/`infinity`/`nan`
contain neither `.` nor `e`, so they never reach the float branch of the
coercer and are left out of the model, as is IEEE overflow of huge
exponents (no such input appears in this code's data). -/
def pyfloat (x : String) : Option PyFloat :=
  let sb := signSplit x.data
  match splitAtFirst isExpChar sb.2 with
  | Option.none =>
    (parseMantissa sb.2).map fun mk0 => pyfloatVal sb.1 mk0.1 mk0.2 0
  | some me =>
    if me.2.any isExpChar then Option.none
    else
      match parseMantissa me.1, parseSignedGroup me.2 with
      | some mk0, some e => some (pyfloatVal sb.1 mk0.1 mk0.2 e)
      | _, _ => Option.none

/-- Embedding of `_to_scalar` (src/analysis/parse_behaviorspace.py, lines
47–60): strip, recognize null/boolean spellings, then route to `float()` when
the text contains `.` or a case-insensitive `e`, else to `int()`; any parse
failure falls back to the stripped text. -/
def _to_scalar (x0 : String) : Scalar :=
  let x := pystrip x0
  if x = "" ∨ pylower x = "na" ∨ pylower x = "nan" then Scalar.none
  else if pylower x = "true" then Scalar.bool true
  else if pylower x = "false" then Scalar.bool false
  else if pycontains x '.' ∨ pycontains (pylower x) 'e' then
    match pyfloat x with
    | some f => Scalar.float f
    | _ => Scalar.str x
  else
    match pyint x with
    | some n => Scalar.int n
    | _ => Scalar.str x

deriving instance DecidableEq for Except

/-- The `ValueError`s raised by the parser module, one constructor per
distinct message in the source. -/
inductive ParseError where
  | noStepInHeader
  | reporterWithoutFinal
  | finalValueMissingValuesRow
  | noReporterOrFinalValue
  | noAllRunDataSection
  | noStepInAllRunData
deriving Repr, DecidableEq

/-- Classification of the errors the spec calls UnsupportedLayout: no
recognized section marker found by the entry operation invoked. -/
def isUnsupportedLayout : ParseError → Bool
  | ParseError.noReporterOrFinalValue => true
  | ParseError.noAllRunDataSection => true
  | _ => false

/-- Classification of the errors the spec calls MalformedSection: a required
marker was found but its companion row/marker is missing. -/
def isMalformedSection : ParseError → Bool
  | ParseError.noStepInHeader => true
  | ParseError.reporterWithoutFinal => true
  | ParseError.finalValueMissingValuesRow => true
  | ParseError.noStepInAllRunData => true
  | _ => false

/-- A parsed record: a Python dict as an insertion-ordered association
list. -/
abbrev Record := List (String × Scalar)

/-- Python dict update `rec[key] = v`: overwrite in place when the key is
already present, else append. -/
def recInsert (rec : Record) (k : String) (v : Scalar) : Record :=
  if rec.any fun p => p.1 == k then
    rec.map fun p => if p.1 == k then (k, v) else p
  else rec ++ [(k, v)]

/-- Build one record from a block's header and value cells: zip positionally,
drop pairs whose stripped label is blank, coerce each kept value
(src lines 78–85). -/
def blockRecord (bh bv : List String) : Record :=
  (bh.zip bv).foldl
    (fun rec kv =>
      let key := pystrip kv.1
      if key = "" then rec else recInsert rec key (_to_scalar kv.2))
    []

/-- Positions (from index `i`) of header cells whose stripped text is
`[step]` — the Python `[i for i, h in enumerate(header) if h.strip() == "[step]"]`. -/
def stepPositionsFrom (i : Nat) : List String → List Nat
  | [] => []
  | h :: t =>
    if pystrip h = "[step]" then i :: stepPositionsFrom (i + 1) t
    else stepPositionsFrom (i + 1) t

/-- All `[step]` marker positions of a header row. -/
def stepPositions (header : List String) : List Nat := stepPositionsFrom 0 header

/-- Inferred block size (src lines 69–72): distance between the first two
marker positions when at least two exist, else the remaining header length
from the single position. -/
def blockSizeOf (header : List String) (ps : List Nat) : Nat :=
  match ps with
  | p0 :: p1 :: _ => p1 - p0
  | [p0] => header.length - p0
  | [] => 0

/-- Python slice `l[start:stop]` for `start ≤ stop` (clips at the list's
end). -/
def sliceTo (l : List String) (start stop : Nat) : List String :=
  (l.drop start).take (stop - start)

/-- The records one value row yields: one per marker position, each from the
header/value slices `[start, min (start+size) header.length)`. -/
def rowBlocks (header : List String) (ps : List Nat) (size : Nat)
    (values : List String) : List Record :=
  ps.map fun start =>
    let e := min (start + size) header.length
    blockRecord (sliceTo header start e) (sliceTo values start e)

/-- Embedding of `_parse_repeated_blocks` (src lines 63–87). -/
def _parse_repeated_blocks (header values : List String) :
    Except ParseError (List Record) :=
  let ps := stepPositions header
  if ps = [] then Except.error ParseError.noStepInHeader
  else Except.ok (rowBlocks header ps (blockSizeOf header ps) values)

/-- Whether a row is nonempty and its stripped first cell equals `m`
(the loop test of `_find_row_index`). -/
def firstCellMatches (m : String) (r : List String) : Bool :=
  match r with
  | [] => false
  | c :: _ => pystrip c == m

/-- The enumerate loop of `_find_row_index`, counting from `i`. -/
def findRowFrom (m : String) (i : Nat) : List (List String) → Option Nat
  | [] => Option.none
  | r :: rest =>
    if firstCellMatches m r then some i else findRowFrom m (i + 1) rest

/-- Embedding of `_find_row_index` (src lines 40–44): index of the first row
whose stripped first cell equals `first_cell`. -/
def _find_row_index (rows : List (List String)) (m : String) : Option Nat :=
  findRowFrom m 0 rows

/-- Embedding of `parse_final` (src lines 90–119) on the row list read from
the file. -/
def parse_final (rows : List (List String)) : Except ParseError (List Record) :=
  match _find_row_index rows "[reporter]" with
  | some iRep =>
    (match _find_row_index rows "[final]" with
     | some iFin =>
       _parse_repeated_blocks ((rows.getD iRep []).tail) ((rows.getD iFin []).tail)
     | _ => Except.error ParseError.reporterWithoutFinal)
  | _ =>
    match _find_row_index rows "[final value]" with
    | some iFv =>
      if rows.length ≤ iFv + 1 then Except.error ParseError.finalValueMissingValuesRow
      else
        let valuesRow := rows.getD (iFv + 1) []
        let values :=
          match valuesRow with
          | [] => valuesRow
          | c :: rest => if pystrip c = "" then rest else valuesRow
        _parse_repeated_blocks ((rows.getD iFv []).tail) values
    | _ => Except.error ParseError.noReporterOrFinalValue

/-- The row loop of `parse_all_run_data` (src lines 146–161): skip empty
rows, stop at a bracketed section header, otherwise drop the first cell of
the row exactly when it strips to blank and emit one record per block. -/
def processAllRunRows (header : List String) (ps : List Nat) (size : Nat) :
    List (List String) → List Record
  | [] => []
  | [] :: rest => processAllRunRows header ps size rest
  | (c :: cs) :: rest =>
    if pystartswith (pystrip c) "[" && !(pystrip c == "") then []
    else
      rowBlocks header ps size (if pystrip c = "" then cs else c :: cs) ++
        processAllRunRows header ps size rest

/-- Embedding of `parse_all_run_data` (src lines 122–163) on the row list
read from the file. -/
def parse_all_run_data (rows : List (List String)) :
    Except ParseError (List Record) :=
  match _find_row_index rows "[all run data]" with
  | some iAll =>
    let header := (rows.getD iAll []).tail
    let ps := stepPositions header
    if ps = [] then Except.error ParseError.noStepInAllRunData
    else
      Except.ok (processAllRunRows header ps (blockSizeOf header ps)
        (rows.drop (iAll + 1)))
  | _ => Except.error ParseError.noAllRunDataSection

/-- Whether a row starts a new bracketed section: nonempty and its stripped
first cell is non-blank and begins with `[` (the break test of the
`parse_all_run_data` loop). -/
def isSectionStart (r : List String) : Bool :=
  match r with
  | [] => false
  | c :: _ => pystartswith (pystrip c) "[" && !(pystrip c == "")

/-- A concrete 23-cell header with `[step]` markers at offsets 2, 9 and 16,
used to check the block-width inference of claim C5. -/
def hdrThree : List String :=
  ["r1", "r2", "[step]", "a1", "a2", "a3", "a4", "a5", "a6",
   "[step]", "b1", "b2", "b3", "b4", "b5", "b6",
   "[step]", "c1", "c2", "c3", "c4", "c5", "c6"]

/-- The header of claim C6's counterexample: markers at offsets 0 and 3,
header length 5, so the second block is clipped to width 2. -/
def hdrClipped : List String := ["[step]", "a", "b", "[step]", "c"]

/-- Claim C1: the scalar coercer is a pure, total function on trimmed text
with `coerce "" = absent`, `coerce "NaN" = absent` (case-insensitively,
likewise `na`), `coerce "true" = boolean true`, `coerce "false" = boolean
false` (case-insensitively), `coerce "3" = integer 3`, `coerce "3.0" = float
3.0`, `coerce "3e2" = float 300.0`, `coerce "abc" = text "abc"`; and whenever
the chosen numeric parse fails, the result is the original trimmed text
(first conjunct, both numeric routes). -/
theorem C1_to_scalar_spec :
    (∀ s : String,
      ¬ (pystrip s = "" ∨ pylower (pystrip s) = "na" ∨ pylower (pystrip s) = "nan") →
      pylower (pystrip s) ≠ "true" →
      pylower (pystrip s) ≠ "false" →
      (((pycontains (pystrip s) '.' ∨ pycontains (pylower (pystrip s)) 'e') →
          pyfloat (pystrip s) = Option.none → _to_scalar s = Scalar.str (pystrip s)) ∧
       (¬ (pycontains (pystrip s) '.' ∨ pycontains (pylower (pystrip s)) 'e') →
          pyint (pystrip s) = Option.none → _to_scalar s = Scalar.str (pystrip s)))) ∧
    _to_scalar "" = Scalar.none ∧
    _to_scalar "NaN" = Scalar.none ∧
    _to_scalar "nan" = Scalar.none ∧
    _to_scalar "na" = Scalar.none ∧
    _to_scalar "NA" = Scalar.none ∧
    _to_scalar "true" = Scalar.bool true ∧
    _to_scalar "True" = Scalar.bool true ∧
    _to_scalar "false" = Scalar.bool false ∧
    _to_scalar "FALSE" = Scalar.bool false ∧
    _to_scalar "3" = Scalar.int 3 ∧
    _to_scalar "3.0" = Scalar.float (mkPyFloat 3 1) ∧
    _to_scalar "3e2" = Scalar.float (mkPyFloat 300 1) ∧
    _to_scalar "abc" = Scalar.str "abc" := by
  refine ⟨?_, by decide, by decide, by decide, by decide, by decide, by decide,
    by decide, by decide, by decide, by decide, by decide, by decide, by decide⟩
  intro s h1 h2 h3
  constructor
  · intro hc hp
    simp only [_to_scalar, if_neg h1, if_neg h2, if_neg h3, if_pos hc, hp]
  · intro hc hp
    simp only [_to_scalar, if_neg h1, if_neg h2, if_neg h3, if_neg hc, hp]

/-- Witness for C1: the fallback clause applied on both numeric routes, at
`"12ab"` (integer route fails) and `"1.2.3"` (float route fails). -/
theorem C1_witness :
    _to_scalar "12ab" = Scalar.str (pystrip "12ab") ∧
    _to_scalar "1.2.3" = Scalar.str (pystrip "1.2.3") :=
  ⟨(C1_to_scalar_spec.1 "12ab" (by decide) (by decide) (by decide)).2 (by decide) (by decide),
   (C1_to_scalar_spec.1 "1.2.3" (by decide) (by decide) (by decide)).1 (by decide) (by decide)⟩

/-- Counterexample to claim C2: a `[final]` row occurring only BEFORE the
`[reporter]` row.  The claim says this must fail with MalformedSection, but
`_find_row_index` scans the whole file from the top, so the earlier
`[final]` row is found and used and the parse succeeds. -/
theorem C2_counterexample :
    parse_final [["[final]", "1"], ["[reporter]", "[step]", "a"]]
      = Except.ok [[("[step]", Scalar.int 1)]] := by decide

/-- Claim C2 amended: when a `[reporter]` row exists, `parse_final` fails
with the MalformedSection error `reporterWithoutFinal` if and only if no row
with stripped first cell `[final]` exists ANYWHERE in the input (not merely
after the `[reporter]` row). -/
theorem C2_reporter_needs_final (rows : List (List String))
    (h : (_find_row_index rows "[reporter]").isSome = true) :
    (parse_final rows = Except.error ParseError.reporterWithoutFinal ↔
      _find_row_index rows "[final]" = Option.none) ∧
    isMalformedSection ParseError.reporterWithoutFinal = true := by
  refine ⟨?_, by decide⟩
  cases hrep : _find_row_index rows "[reporter]" with
  | none => rw [hrep] at h; cases h
  | some iRep =>
    cases hfin : _find_row_index rows "[final]" with
    | none => simp [parse_final, hrep, hfin]
    | some iFin =>
      simp only [parse_final, hrep, hfin]
      constructor
      · intro hcontra
        exfalso
        revert hcontra
        unfold _parse_repeated_blocks
        by_cases hps : stepPositions ((rows.getD iRep []).tail) = []
        · rw [if_pos hps]; intro hcontra; cases hcontra
        · rw [if_neg hps]; intro hcontra; cases hcontra
      · intro hcontra; cases hcontra

/-- Witness for C2: a file with a `[reporter]` row and no `[final]` row at
all errors with `reporterWithoutFinal`. -/
theorem C2_witness :
    (_find_row_index [["[reporter]", "[step]"]] "[reporter]").isSome = true ∧
    ((parse_final [["[reporter]", "[step]"]] = Except.error ParseError.reporterWithoutFinal ↔
        _find_row_index [["[reporter]", "[step]"]] "[final]" = Option.none) ∧
      isMalformedSection ParseError.reporterWithoutFinal = true) :=
  ⟨by decide, C2_reporter_needs_final _ (by decide)⟩

/-- Counterexample to claim C3: on the claimed input (header `[final value],A,B`,
value row `,5,6.5`) the parse does not return `[{A:5, B:6.5}]` — the header
contains no `[step]` marker, so `_parse_repeated_blocks` raises the
MalformedSection error "Could not find '[step]' in header row". -/
theorem C3_counterexample :
    parse_final [["[final value]", "A", "B"], ["", "5", "6.5"]]
      = Except.error ParseError.noStepInHeader ∧
    parse_final [["[final value]", "A", "B"], ["5", "6.5"]]
      = Except.error ParseError.noStepInHeader := by decide

/-- Claim C3 amended: with the mandatory `[step]` marker column included,
`parse_final` on a `[final value]` header row `[final value],[step],A,B`
followed by the blank-first-cell value row `,1,5,6.5` returns the single
record `{[step]:1, A: integer 5, B: float 6.5}`, and the variant whose value
row `1,5,6.5` lacks the leading blank cell returns the same record: the
leading cell of the value row is dropped exactly when it is blank. -/
theorem C3_final_value_scenario :
    parse_final [["[final value]", "[step]", "A", "B"], ["", "1", "5", "6.5"]]
      = Except.ok [[("[step]", Scalar.int 1), ("A", Scalar.int 5),
                    ("B", Scalar.float (mkPyFloat 13 2))]] ∧
    parse_final [["[final value]", "[step]", "A", "B"], ["1", "5", "6.5"]]
      = Except.ok [[("[step]", Scalar.int 1), ("A", Scalar.int 5),
                    ("B", Scalar.float (mkPyFloat 13 2))]] := by decide

/-- Counterexample to claim C4: the two records produced from header
`,[step],x,y,[step],x,y` and value row `,1,10,20,2,11,21` are NOT keyed by
`step` — the step column's key is the literal trimmed marker `[step]`.
(The leading blank cell of each row is the label cell dropped before
`_parse_repeated_blocks` is called, as in `parse_final`.) -/
theorem C4_counterexample :
    _parse_repeated_blocks ["[step]", "x", "y", "[step]", "x", "y"]
        ["1", "10", "20", "2", "11", "21"]
      ≠ Except.ok [[("step", Scalar.int 1), ("x", Scalar.int 10), ("y", Scalar.int 20)],
                   [("step", Scalar.int 2), ("x", Scalar.int 11), ("y", Scalar.int 21)]] := by decide

/-- Claim C4 amended: parsing header `,[step],x,y,[step],x,y` (label cell
dropped, giving the header list) with the aligned value row
`,1,10,20,2,11,21` yields two records in ascending block order whose keys
are `[step]`, `x`, `y` with the stated integer values. -/
theorem C4_two_blocks_scenario :
    _parse_repeated_blocks ["[step]", "x", "y", "[step]", "x", "y"]
        ["1", "10", "20", "2", "11", "21"]
      = Except.ok [[("[step]", Scalar.int 1), ("x", Scalar.int 10), ("y", Scalar.int 20)],
                   [("[step]", Scalar.int 2), ("x", Scalar.int 11), ("y", Scalar.int 21)]] := by decide

/-- Claim C5: whenever the header has at least one `[step]` marker,
`_parse_repeated_blocks` succeeds with exactly one record per marker
occurrence, for ANY value row; the inferred block width is the difference of
the first two marker offsets when at least two exist and otherwise the
remaining header length; and for the concrete header `hdrThree` with marker
offsets `[2, 9, 16]` the inferred width is 7 and three records are produced
regardless of value-row length, never an error. -/
theorem C5_record_per_marker :
    (∀ header values : List String, stepPositions header ≠ [] →
      ∃ recs, _parse_repeated_blocks header values = Except.ok recs ∧
        recs.length = (stepPositions header).length) ∧
    (∀ (header : List String) (p0 p1 : Nat) (rest : List Nat),
      stepPositions header = p0 :: p1 :: rest →
      blockSizeOf header (stepPositions header) = p1 - p0) ∧
    (∀ (header : List String) (p0 : Nat),
      stepPositions header = [p0] →
      blockSizeOf header (stepPositions header) = header.length - p0) ∧
    (∀ values : List String,
      stepPositions hdrThree = [2, 9, 16] ∧
      blockSizeOf hdrThree (stepPositions hdrThree) = 7 ∧
      ∃ recs, _parse_repeated_blocks hdrThree values = Except.ok recs ∧
        recs.length = 3) := by
  have hmain : ∀ header values : List String, stepPositions header ≠ [] →
      ∃ recs, _parse_repeated_blocks header values = Except.ok recs ∧
        recs.length = (stepPositions header).length := by
    intro header values h
    refine ⟨rowBlocks header (stepPositions header)
      (blockSizeOf header (stepPositions header)) values, ?_, ?_⟩
    · simp only [_parse_repeated_blocks, if_neg h]
    · simp [rowBlocks]
  refine ⟨hmain, ?_, ?_, ?_⟩
  · intro header p0 p1 rest h
    rw [h]
    rfl
  · intro header p0 h
    rw [h]
    rfl
  · intro values
    refine ⟨by decide, by decide, ?_⟩
    obtain ⟨recs, hok, hlen⟩ := hmain hdrThree values (by decide)
    refine ⟨recs, hok, ?_⟩
    rw [hlen]
    decide

/-- Witness for C5: a one-marker header with a too-short value row still
succeeds with one record, and the `hdrThree` clause holds at an overlong
value row. -/
theorem C5_witness :
    (stepPositions ["[step]", "a", "b"] ≠ [] ∧
      ∃ recs, _parse_repeated_blocks ["[step]", "a", "b"] ["1"] = Except.ok recs ∧
        recs.length = (stepPositions ["[step]", "a", "b"]).length) ∧
    (stepPositions hdrThree = [2, 9, 16] ∧
      blockSizeOf hdrThree (stepPositions hdrThree) = 7 ∧
      ∃ recs, _parse_repeated_blocks hdrThree ["1"] = Except.ok recs ∧ recs.length = 3) :=
  ⟨⟨by decide, C5_record_per_marker.1 ["[step]", "a", "b"] ["1"] (by decide)⟩,
   C5_record_per_marker.2.2.2 ["1"]⟩

/-- Counterexample to claim C6: block width is NOT constant across all
blocks of one header row.  For `hdrClipped` (markers at offsets 0 and 3,
header length 5, inferred width 3) the segmenter's two header slices have
widths 3 and 2: the final block is clipped at the header's end. -/
theorem C6_counterexample :
    stepPositions hdrClipped = [0, 3] ∧
    blockSizeOf hdrClipped (stepPositions hdrClipped) = 3 ∧
    (sliceTo hdrClipped 0 (min (0 + blockSizeOf hdrClipped (stepPositions hdrClipped))
        hdrClipped.length)).length = 3 ∧
    (sliceTo hdrClipped 3 (min (3 + blockSizeOf hdrClipped (stepPositions hdrClipped))
        hdrClipped.length)).length = 2 ∧
    (sliceTo hdrClipped 0 (min (0 + blockSizeOf hdrClipped (stepPositions hdrClipped))
        hdrClipped.length)).length ≠
      (sliceTo hdrClipped 3 (min (3 + blockSizeOf hdrClipped (stepPositions hdrClipped))
        hdrClipped.length)).length := by decide

/-- Claim C6 amended: for every header row and every marker offset the block
derived at that offset has width `min (inferred size) (header length −
offset)` — i.e. every block has the inferred width except where clipped by
the header's end, which can make blocks of one header differ in width. -/
theorem C6_block_width (header : List String) (start : Nat)
    (_mem : start ∈ stepPositions header) :
    (sliceTo header start (min (start + blockSizeOf header (stepPositions header))
        header.length)).length
      = min (blockSizeOf header (stepPositions header)) (header.length - start) := by
  simp only [sliceTo, List.length_take, List.length_drop]
  omega

/-- Witness for C6: the amended width formula evaluated on `hdrClipped` at
its second marker offset. -/
theorem C6_witness :
    3 ∈ stepPositions hdrClipped ∧
    (sliceTo hdrClipped 3 (min (3 + blockSizeOf hdrClipped (stepPositions hdrClipped))
        hdrClipped.length)).length
      = min (blockSizeOf hdrClipped (stepPositions hdrClipped)) (hdrClipped.length - 3) :=
  ⟨by decide, C6_block_width hdrClipped 3 (by decide)⟩

/-- The `parse_all_run_data` row loop never consumes a section-starting row
or anything after it: processing `pre ++ b :: post` where no row of `pre`
starts a section and `b` does equals processing `pre` alone. -/
theorem processAllRunRows_stops_at_section (header : List String) (ps : List Nat)
    (size : Nat) (pre post : List (List String)) (b : List String)
    (hpre : ∀ r ∈ pre, isSectionStart r = false)
    (hb : isSectionStart b = true) :
    processAllRunRows header ps size (pre ++ b :: post)
      = processAllRunRows header ps size pre := by
  induction pre with
  | nil =>
    cases b with
    | nil => cases hb
    | cons c cs =>
      have hcond : (pystartswith (pystrip c) "[" && !(pystrip c == "")) = true := hb
      simp [processAllRunRows, hcond]
  | cons r rest ih =>
    have hr : isSectionStart r = false := hpre r (List.mem_cons_self r rest)
    have hrest : ∀ x ∈ rest, isSectionStart x = false :=
      fun x hx => hpre x (List.mem_cons_of_mem _ hx)
    cases r with
    | nil =>
      simp only [List.cons_append, processAllRunRows]
      exact ih hrest
    | cons c cs =>
      have hcond : (pystartswith (pystrip c) "[" && !(pystrip c == "")) = false := hr
      simp only [List.cons_append, processAllRunRows, hcond, Bool.false_eq_true, if_false,
        List.append_eq]
      rw [ih hrest]

/-- On a row list headed by the `[all run data]` header row, the parse
succeeds and returns exactly the records of the row loop. -/
theorem parse_all_run_data_ok (c : String) (hdrTail : List String)
    (rest : List (List String))
    (hc : pystrip c = "[all run data]")
    (hstep : stepPositions hdrTail ≠ []) :
    parse_all_run_data ((c :: hdrTail) :: rest)
      = Except.ok (processAllRunRows hdrTail (stepPositions hdrTail)
          (blockSizeOf hdrTail (stepPositions hdrTail)) rest) := by
  have hfind : _find_row_index ((c :: hdrTail) :: rest) "[all run data]" = some 0 := by
    simp [_find_row_index, findRowFrom, firstCellMatches, hc]
  simp only [parse_all_run_data, hfind, List.getD_cons_zero, List.tail_cons,
    List.drop_succ_cons, List.drop_zero, if_neg hstep]

/-- Claim C7: `parse_all_run_data` consumes value rows strictly after the
`[all run data]` header row and stops before the first subsequent row whose
stripped first cell is non-blank and begins with `[`: no record is produced
from that row or any row after it, and the table built from the rows before
it is returned as a valid (non-error) result. -/
theorem C7_stops_at_new_section (c : String) (hdrTail : List String)
    (pre post : List (List String)) (b : List String)
    (hc : pystrip c = "[all run data]")
    (hstep : stepPositions hdrTail ≠ [])
    (hpre : ∀ r ∈ pre, isSectionStart r = false)
    (hb : isSectionStart b = true) :
    parse_all_run_data ((c :: hdrTail) :: (pre ++ b :: post))
      = parse_all_run_data ((c :: hdrTail) :: pre) ∧
    ∃ recs,
      parse_all_run_data ((c :: hdrTail) :: (pre ++ b :: post)) = Except.ok recs ∧
      recs = processAllRunRows hdrTail (stepPositions hdrTail)
        (blockSizeOf hdrTail (stepPositions hdrTail)) pre := by
  have hps := processAllRunRows_stops_at_section hdrTail (stepPositions hdrTail)
    (blockSizeOf hdrTail (stepPositions hdrTail)) pre post b hpre hb
  refine ⟨?_, ?_⟩
  · rw [parse_all_run_data_ok c hdrTail _ hc hstep,
      parse_all_run_data_ok c hdrTail _ hc hstep, hps]
  · exact ⟨_, parse_all_run_data_ok c hdrTail _ hc hstep, hps⟩

/-- Witness for C7: an `[all run data]` section with one value row, then a
`[reporter]` section header, then one more data row; the parse equals the
parse of the truncated file and succeeds on the rows before the marker. -/
theorem C7_witness :
    parse_all_run_data
        [["[all run data]", "[step]", "x"], ["", "1", "5"], ["[reporter]", "z"], ["", "2", "6"]]
      = parse_all_run_data [["[all run data]", "[step]", "x"], ["", "1", "5"]] ∧
    ∃ recs,
      parse_all_run_data
          [["[all run data]", "[step]", "x"], ["", "1", "5"], ["[reporter]", "z"], ["", "2", "6"]]
        = Except.ok recs ∧
      recs = processAllRunRows ["[step]", "x"] (stepPositions ["[step]", "x"])
        (blockSizeOf ["[step]", "x"] (stepPositions ["[step]", "x"])) [["", "1", "5"]] :=
  C7_stops_at_new_section "[all run data]" ["[step]", "x"]
    [["", "1", "5"]] [["", "2", "6"]] ["[reporter]", "z"]
    (by decide) (by decide) (by decide) (by decide)

/-- When no row of `rows` has `m` as its stripped first cell, the row search
finds nothing, from any starting index. -/
theorem findRowFrom_eq_none (m : String) (rows : List (List String))
    (h : ∀ r ∈ rows, firstCellMatches m r = false) :
    ∀ i, findRowFrom m i rows = Option.none := by
  induction rows with
  | nil => intro i; rfl
  | cons r rest ih =>
    intro i
    have hr : firstCellMatches m r = false := h r (List.mem_cons_self r rest)
    simp only [findRowFrom, hr, Bool.false_eq_true, if_false]
    exact ih (fun x hx => h x (List.mem_cons_of_mem _ hx)) (i + 1)

/-- Claim C8: on any input containing no row whose stripped first cell is
`[reporter]`, `[final value]` or `[all run data]`, `parse_final` and
`parse_all_run_data` both fail with their UnsupportedLayout error; neither
returns a table or guesses a default layout. -/
theorem C8_unsupported_layout (rows : List (List String))
    (h : ∀ r ∈ rows,
      firstCellMatches "[reporter]" r = false ∧
      firstCellMatches "[final value]" r = false ∧
      firstCellMatches "[all run data]" r = false) :
    parse_final rows = Except.error ParseError.noReporterOrFinalValue ∧
    parse_all_run_data rows = Except.error ParseError.noAllRunDataSection ∧
    isUnsupportedLayout ParseError.noReporterOrFinalValue = true ∧
    isUnsupportedLayout ParseError.noAllRunDataSection = true := by
  have h1 : _find_row_index rows "[reporter]" = Option.none :=
    findRowFrom_eq_none _ rows (fun r hr => (h r hr).1) 0
  have h2 : _find_row_index rows "[final value]" = Option.none :=
    findRowFrom_eq_none _ rows (fun r hr => (h r hr).2.1) 0
  have h3 : _find_row_index rows "[all run data]" = Option.none :=
    findRowFrom_eq_none _ rows (fun r hr => (h r hr).2.2) 0
  refine ⟨?_, ?_, by decide, by decide⟩
  · simp only [parse_final, h1, h2]
  · simp only [parse_all_run_data, h3]

/-- Witness for C8: a concrete two-row file with no recognized marker. -/
theorem C8_witness :
    parse_final [["x", "y"], ["1", "2"]] = Except.error ParseError.noReporterOrFinalValue ∧
    parse_all_run_data [["x", "y"], ["1", "2"]] = Except.error ParseError.noAllRunDataSection ∧
    isUnsupportedLayout ParseError.noReporterOrFinalValue = true ∧
    isUnsupportedLayout ParseError.noAllRunDataSection = true :=
  C8_unsupported_layout [["x", "y"], ["1", "2"]] (by decide)

/-- Claim C9: inside the `[all run data]` section each value row has its
leading cell removed before block slicing exactly when that first cell is
blank after stripping; a row whose first cell is non-blank (and not a
section start) is sliced as-is.  Since the header always drops the marker
cell, the alignment of values against the header shifts by one cell
depending on the presence of the leading padding cell. -/
theorem C9_leading_value_cell (header : List String) (ps : List Nat) (size : Nat)
    (c : String) (cs : List String) (rest : List (List String))
    (hterm : isSectionStart (c :: cs) = false) :
    (pystrip c = "" →
      processAllRunRows header ps size ((c :: cs) :: rest)
        = rowBlocks header ps size cs ++ processAllRunRows header ps size rest) ∧
    (pystrip c ≠ "" →
      processAllRunRows header ps size ((c :: cs) :: rest)
        = rowBlocks header ps size (c :: cs) ++ processAllRunRows header ps size rest) := by
  have hcond : (pystartswith (pystrip c) "[" && !(pystrip c == "")) = false := hterm
  constructor
  · intro hblank
    simp only [processAllRunRows, hcond, Bool.false_eq_true, if_false, if_pos hblank]
  · intro hnb
    simp only [processAllRunRows, hcond, Bool.false_eq_true, if_false, if_neg hnb]

/-- Witness for C9: both cases at concrete rows — a blank-leading row `,7`
loses its padding cell, a bare row `7` is sliced as-is. -/
theorem C9_witness :
    processAllRunRows ["[step]"] [0] 1 [["", "7"]]
      = rowBlocks ["[step]"] [0] 1 ["7"] ++ processAllRunRows ["[step]"] [0] 1 [] ∧
    processAllRunRows ["[step]"] [0] 1 [["7", "8"]]
      = rowBlocks ["[step]"] [0] 1 ["7", "8"] ++ processAllRunRows ["[step]"] [0] 1 [] :=
  ⟨(C9_leading_value_cell ["[step]"] [0] 1 "" ["7"] [] (by decide)).1 (by decide),
   (C9_leading_value_cell ["[step]"] [0] 1 "7" ["8"] [] (by decide)).2 (by decide)⟩

/-- Claim C10: a completely empty row (zero cells) inside the
`[all run data]` section is skipped before its first cell would be
inspected: it neither terminates the scan nor produces records, so
processing it is processing the remaining rows.  (In the embedding the
first-cell access is the pattern match on the row, total by construction;
the Python guard `if not r: continue` is this equation.) -/
theorem C10_empty_row_skipped (header : List String) (ps : List Nat) (size : Nat)
    (rest : List (List String)) :
    processAllRunRows header ps size ([] :: rest)
      = processAllRunRows header ps size rest := rfl

/-- Witness for C10: an empty row between two value rows of a concrete file
is skipped and the parse succeeds on the surrounding rows. -/
theorem C10_witness :
    processAllRunRows ["[step]", "x"] [0] 2 ([] :: [["", "1", "5"]])
      = processAllRunRows ["[step]", "x"] [0] 2 [["", "1", "5"]] :=
  C10_empty_row_skipped ["[step]", "x"] [0] 2 [["", "1", "5"]]
